import Mathlib

/-!
Verification of the dataset-subsampling tool (subsample_undistorted.py).

The Python source is shallowly embedded: each Python function used by the
claims is translated into an executable Lean definition over `String` /
`List String`, with Python's string primitives (basename, splitext,
rsplit, split, strip, startswith) modelled as `List Char` computations.
-/

namespace Subsample

/-- Characters of the suffix after the last occurrence of the character
in the list; the whole list when the character is absent.  Models the
final path component selection of os.path.basename. -/
def afterLast (c : Char) (l : List Char) : List Char :=
  (l.reverse.takeWhile (· ≠ c)).reverse

/-- Characters strictly before the last occurrence of the character; only
used when the character is known to occur. -/
def beforeLast (c : Char) (l : List Char) : List Char :=
  ((l.reverse.dropWhile (· ≠ c)).drop 1).reverse

/-- Models os.path.basename: the part of the path after the last slash. -/
def pyBasename (s : String) : String :=
  String.mk (afterLast '/' s.data)

/-- Models os.path.splitext(s)[0] on a basename: drop the extension after
the last dot, except when every character before that dot is itself a dot
(Python treats such names, like dotfiles, as having no extension). -/
def pySplitextRoot (s : String) : String :=
  let cs := s.data
  if cs.contains '.' then
    let pre := beforeLast '.' cs
    if pre.any (· ≠ '.') then String.mk pre else s
  else s

/-- Embedding of get_shot_number: basename, strip the extension, and if
the remaining name contains an underscore return the part before the
last underscore (rsplit), otherwise the whole name. -/
def get_shot_number (filename : String) : String :=
  let b := pyBasename filename
  let r := pySplitextRoot b
  if r.data.contains '_' then String.mk (beforeLast '_' r.data) else r

example : get_shot_number "000921_0.png" = "000921" := by decide
example : get_shot_number "000921_1.png" = "000921" := by decide
example : get_shot_number "IMG_0001.jpg" = "IMG" := by decide
example : get_shot_number "abc.png" = "abc" := by decide

/-- Accumulator-based whitespace tokenizer over a character list: the
words of the list, in order, with runs of whitespace as separators. -/
def splitWsAux (cur : List Char) : List Char → List (List Char)
  | [] => if cur.isEmpty then [] else [cur.reverse]
  | c :: cs =>
    if c.isWhitespace then
      if cur.isEmpty then splitWsAux [] cs else cur.reverse :: splitWsAux [] cs
    else splitWsAux (c :: cur) cs

/-- Models Python str.split() with no arguments: split on runs of
whitespace, discarding empty tokens. -/
def pySplit (s : String) : List String :=
  (splitWsAux [] s.data).map String.mk

example : pySplit "1 0.5 0.5 0.5 0.5 1.0 2.0 3.0 1 a.png\n" =
    ["1", "0.5", "0.5", "0.5", "0.5", "1.0", "2.0", "3.0", "1", "a.png"] := by decide

/-- Models line.startswith(the comment marker): the first character of
the line is the hash mark. -/
def isComment (s : String) : Bool :=
  s.data.head? == some '#'

/-- Models (not line.strip()): true when the line has only whitespace,
i.e. stripping it leaves the empty (falsy) string. -/
def isBlank (s : String) : Bool :=
  s.data.all Char.isWhitespace

/-- Retention test of filter_images_txt for a header line: at least 10
whitespace-separated fields and the 10th field (NAME) in the retained
set. -/
def keepHeader (sel : List String) (line : String) : Bool :=
  let parts := pySplit line
  decide (10 ≤ parts.length) && sel.contains (parts.getD 9 "")

/-- Embedding of the while-loop of filter_images_txt over the list of
input lines, returning the written output lines and the kept count.
A comment line is written and the loop advances by one line; a blank
line advances by one line without writing; any other line is a header:
the loop advances by two lines, and when the header passes `keepHeader`
it is written together with the following continuation line (when one
exists) and the kept count is incremented. -/
def filterLines (sel : List String) : List String → List String × Nat
  | [] => ([], 0)
  | line :: rest =>
    if isComment line then
      let r := filterLines sel rest
      (line :: r.1, r.2)
    else if isBlank line then
      filterLines sel rest
    else
      match rest with
      | [] => if keepHeader sel line then ([line], 1) else ([], 0)
      | cont :: rest2 =>
        let r := filterLines sel rest2
        if keepHeader sel line then (line :: cont :: r.1, r.2 + 1) else r

example :
    filterLines ["a.png"]
      ["# hdr\n", "1 0 0 0 1 0 0 0 1 a.png\n", "7 8 9\n",
       "2 0 0 0 1 0 0 0 1 b.png\n", "4 5 6\n"] =
    (["# hdr\n", "1 0 0 0 1 0 0 0 1 a.png\n", "7 8 9\n"], 1) := by decide

/-- Structural view of a pose-record text file: a comment line, a blank
line, or an entry made of a header line and its continuation line. -/
inductive PoseItem where
  | comment (s : String)
  | blank (s : String)
  | entry (header cont : String)
deriving DecidableEq

/-- The lines of a structured pose file, in order; an entry contributes
its header line immediately followed by its continuation line. -/
def flattenPose : List PoseItem → List String
  | [] => []
  | .comment s :: rest => s :: flattenPose rest
  | .blank s :: rest => s :: flattenPose rest
  | .entry h c :: rest => h :: c :: flattenPose rest

/-- The NAME field of a header line: its 10th whitespace-separated
field. -/
def entryName (h : String) : String :=
  (pySplit h).getD 9 ""

/-- Well-formedness of a structured item with respect to the line
classification of filter_images_txt: comment lines start with the
marker; blank lines are whitespace-only; header lines are neither, and
carry at least 10 fields. The continuation line is unconstrained: the
loop copies or skips it without inspecting it. -/
def wfItem : PoseItem → Prop
  | .comment s => isComment s = true
  | .blank s => isComment s = false ∧ isBlank s = true
  | .entry h _ => isComment h = false ∧ isBlank h = false ∧ 10 ≤ (pySplit h).length

instance : DecidablePred wfItem := fun it => by
  cases it <;> simp only [wfItem] <;> infer_instance

/-- The retained items: comments kept, blanks dropped, an entry kept
exactly when its NAME is in the retained set. -/
def filterPoseItems (sel : List String) : List PoseItem → List PoseItem
  | [] => []
  | .comment s :: rest => .comment s :: filterPoseItems sel rest
  | .blank _ :: rest => filterPoseItems sel rest
  | .entry h c :: rest =>
    if sel.contains (entryName h) then .entry h c :: filterPoseItems sel rest
    else filterPoseItems sel rest

/-- The number of entries of the structured file whose NAME is in the
retained set. -/
def keptCount (sel : List String) (items : List PoseItem) : Nat :=
  items.countP fun it =>
    match it with
    | .entry h _ => sel.contains (entryName h)
    | _ => false

theorem keepHeader_of_long (sel : List String) (h : String)
    (h3 : 10 ≤ (pySplit h).length) :
    keepHeader sel h = sel.contains (entryName h) := by
  simp only [keepHeader, entryName]
  rw [decide_eq_true h3, Bool.true_and]

/-- Central pairing lemma: on the lines of a well-formed structured file
followed by arbitrary trailing lines, the loop of filter_images_txt
writes exactly the lines of the retained items, then processes the
trailing lines, and the kept count adds up. -/
theorem filterLines_flatten_append (sel tail : List String) :
    ∀ items : List PoseItem, (∀ it ∈ items, wfItem it) →
      filterLines sel (flattenPose items ++ tail) =
        (flattenPose (filterPoseItems sel items) ++ (filterLines sel tail).1,
         keptCount sel items + (filterLines sel tail).2) := by
  intro items
  induction items with
  | nil =>
    intro _
    simp [flattenPose, filterPoseItems, keptCount]
  | cons it rest ih =>
    intro hwf
    have hit : wfItem it := hwf it (List.mem_cons_self it rest)
    have hrest : ∀ x ∈ rest, wfItem x := fun x hx => hwf x (List.mem_cons_of_mem _ hx)
    cases it with
    | comment s =>
      have h1 : isComment s = true := hit
      simp only [flattenPose, List.cons_append]
      rw [filterLines.eq_def]
      simp [h1, ih hrest, filterPoseItems, flattenPose, keptCount, List.countP_cons]
    | blank s =>
      obtain ⟨h1, h2⟩ := hit
      simp only [flattenPose, List.cons_append]
      rw [filterLines.eq_def]
      simp [h1, h2, ih hrest, filterPoseItems, keptCount, List.countP_cons]
    | entry h c =>
      obtain ⟨h1, h2, h3⟩ := hit
      have hk := keepHeader_of_long sel h h3
      simp only [flattenPose, List.cons_append]
      rw [filterLines.eq_def]
      by_cases hc : entryName h ∈ sel <;>
        simp [h1, h2, hk, hc, ih hrest, filterPoseItems, flattenPose, keptCount,
          List.countP_cons] <;>
        omega

/-- Boolean test for an entry item. -/
def isEntry : PoseItem → Bool
  | .entry _ _ => true
  | _ => false

theorem filterPoseItems_comment_mem (sel : List String) (s : String) :
    ∀ items : List PoseItem, PoseItem.comment s ∈ items →
      PoseItem.comment s ∈ filterPoseItems sel items := by
  intro items
  induction items with
  | nil => intro h; cases h
  | cons it rest ih =>
    intro hmem
    rcases List.mem_cons.mp hmem with heq | hm
    · subst heq
      simp [filterPoseItems]
    · cases it with
      | comment t => simp [filterPoseItems, ih hm]
      | blank t => simp [filterPoseItems, ih hm]
      | entry h c =>
        simp only [filterPoseItems]
        split <;> simp [ih hm]

theorem filterPoseItems_no_blank (sel : List String) (s : String) :
    ∀ items : List PoseItem, PoseItem.blank s ∉ filterPoseItems sel items := by
  intro items
  induction items with
  | nil => simp [filterPoseItems]
  | cons it rest ih =>
    cases it with
    | comment t => simp [filterPoseItems, ih]
    | blank t => simp [filterPoseItems, ih]
    | entry h c =>
      simp only [filterPoseItems]
      split <;> simp [ih]

theorem filterPoseItems_all_kept (sel : List String) :
    ∀ items : List PoseItem,
      (∀ h c, PoseItem.entry h c ∈ items → entryName h ∈ sel) →
      (∀ s, PoseItem.blank s ∉ items) →
      filterPoseItems sel items = items := by
  intro items
  induction items with
  | nil => intro _ _; rfl
  | cons it rest ih =>
    intro hall hnb
    have hrest := ih (fun h c hm => hall h c (List.mem_cons_of_mem _ hm))
      (fun s hs => hnb s (List.mem_cons_of_mem _ hs))
    cases it with
    | comment t => simp [filterPoseItems, hrest]
    | blank t => exact absurd (List.mem_cons_self _ _) (fun h => hnb t h)
    | entry h c =>
      have : entryName h ∈ sel := hall h c (List.mem_cons_self _ _)
      simp [filterPoseItems, this, hrest]

theorem keptCount_all_kept (sel : List String) :
    ∀ items : List PoseItem,
      (∀ h c, PoseItem.entry h c ∈ items → entryName h ∈ sel) →
      keptCount sel items = items.countP isEntry := by
  intro items
  induction items with
  | nil => intro _; rfl
  | cons it rest ih =>
    intro hall
    have hrest := ih (fun h c hm => hall h c (List.mem_cons_of_mem _ hm))
    cases it with
    | comment t => simp [keptCount, List.countP_cons, isEntry] at hrest ⊢; exact hrest
    | blank t => simp [keptCount, List.countP_cons, isEntry] at hrest ⊢; exact hrest
    | entry h c =>
      have hm : entryName h ∈ sel := hall h c (List.mem_cons_self _ _)
      simp [keptCount, List.countP_cons, isEntry, hm] at hrest ⊢; exact hrest

/-- C1: for every well-formed pose-record file (comments, blanks, and
two-line entries) and every retained-name set, filter_images_txt writes
exactly the retained entries as intact header/continuation pairs, passes
comment lines through in their original relative order, and returns the
number of retained entries as the kept count. -/
theorem claim_C1_filter_images_txt_exact (sel : List String) (items : List PoseItem)
    (hwf : ∀ it ∈ items, wfItem it) :
    filterLines sel (flattenPose items) =
      (flattenPose (filterPoseItems sel items), keptCount sel items) := by
  have h := filterLines_flatten_append sel [] items hwf
  have h0 : filterLines sel [] = ([], 0) := rfl
  rw [h0] at h
  simpa using h

/-- Concrete two-entry pose file used by the witnesses. -/
def sampleItems : List PoseItem :=
  [.comment "# Image list\n",
   .entry "1 0.5 0.5 0.5 0.5 1.0 2.0 3.0 1 000001_0.png\n" "1.0 2.0 5\n",
   .entry "2 0.5 0.5 0.5 0.5 1.0 2.0 3.0 1 000002_0.png\n" "3.0 4.0 7\n"]

theorem claim_C1_witness :
    filterLines ["000001_0.png"] (flattenPose sampleItems) =
      (flattenPose (filterPoseItems ["000001_0.png"] sampleItems),
       keptCount ["000001_0.png"] sampleItems) :=
  claim_C1_filter_images_txt_exact ["000001_0.png"] sampleItems (by decide)

/-- C10: when the last line of the input is a retained header with no
following continuation line, the loop's guarded access writes the header
alone, still counts it, and never reads past the end of the input (the
embedding is total on the finite line list). -/
theorem claim_C10_trailing_header (sel : List String) (items : List PoseItem)
    (h : String) (hwf : ∀ it ∈ items, wfItem it)
    (h1 : isComment h = false) (h2 : isBlank h = false)
    (h3 : 10 ≤ (pySplit h).length) (h4 : entryName h ∈ sel) :
    filterLines sel (flattenPose items ++ [h]) =
      (flattenPose (filterPoseItems sel items) ++ [h], keptCount sel items + 1) := by
  have htail : filterLines sel [h] = ([h], 1) := by
    rw [filterLines.eq_def]
    simp [h1, h2, keepHeader_of_long sel h h3, h4]
  have hmain := filterLines_flatten_append sel [h] items hwf
  rw [htail] at hmain
  simpa using hmain

theorem claim_C10_witness :
    filterLines ["000003_0.png"]
      (flattenPose sampleItems ++ ["3 0.5 0.5 0.5 0.5 1.0 2.0 3.0 1 000003_0.png\n"]) =
      (flattenPose (filterPoseItems ["000003_0.png"] sampleItems) ++
        ["3 0.5 0.5 0.5 0.5 1.0 2.0 3.0 1 000003_0.png\n"],
       keptCount ["000003_0.png"] sampleItems + 1) :=
  claim_C10_trailing_header ["000003_0.png"] sampleItems
    "3 0.5 0.5 0.5 0.5 1.0 2.0 3.0 1 000003_0.png\n"
    (by decide) (by decide) (by decide) (by decide) (by decide)

/-- C4 counterexample: the claim says blank lines are preserved verbatim
in the filtered output; on this concrete input the blank line is dropped
from the output, while the comment and the retained entry survive. -/
theorem claim_C4_counterexample :
    " \n" ∈ ["# cams\n", " \n", "1 0.5 0.5 0.5 0.5 1.0 2.0 3.0 1 a.png\n", "1.0 2.0 5\n"] ∧
    filterLines ["a.png"]
      ["# cams\n", " \n", "1 0.5 0.5 0.5 0.5 1.0 2.0 3.0 1 a.png\n", "1.0 2.0 5\n"] =
      (["# cams\n", "1 0.5 0.5 0.5 0.5 1.0 2.0 3.0 1 a.png\n", "1.0 2.0 5\n"], 1) := by
  constructor
  · decide
  · decide

/-- C4 amended: comment lines are preserved verbatim, blank lines are
skipped (omitted from the output), and neither advances the two-line
entry pairing (on a well-formed file the retained entries come out as
intact header/continuation pairs with the correct kept count). -/
theorem claim_C4_amended_blanks_skipped (sel : List String) (items : List PoseItem)
    (hwf : ∀ it ∈ items, wfItem it) :
    (filterLines sel (flattenPose items)).1 = flattenPose (filterPoseItems sel items) ∧
    (∀ s, PoseItem.comment s ∈ items →
      PoseItem.comment s ∈ filterPoseItems sel items) ∧
    (∀ s, PoseItem.blank s ∉ filterPoseItems sel items) := by
  refine ⟨?_, ?_, ?_⟩
  · have h := filterLines_flatten_append sel [] items hwf
    have h0 : filterLines sel [] = ([], 0) := rfl
    rw [h0] at h
    simp only [List.append_nil] at h
    rw [h]
  · exact fun s hm => filterPoseItems_comment_mem sel s items hm
  · exact fun s => filterPoseItems_no_blank sel s items

/-- Concrete pose file with a blank line used by the C4 witness. -/
def sampleItemsBlank : List PoseItem :=
  [.comment "# Image list\n",
   .blank " \n",
   .entry "1 0.5 0.5 0.5 0.5 1.0 2.0 3.0 1 000001_0.png\n" "1.0 2.0 5\n"]

theorem claim_C4_witness :
    (filterLines ["000001_0.png"] (flattenPose sampleItemsBlank)).1 =
      flattenPose (filterPoseItems ["000001_0.png"] sampleItemsBlank) ∧
    (∀ s, PoseItem.comment s ∈ sampleItemsBlank →
      PoseItem.comment s ∈ filterPoseItems ["000001_0.png"] sampleItemsBlank) ∧
    (∀ s, PoseItem.blank s ∉ filterPoseItems ["000001_0.png"] sampleItemsBlank) :=
  claim_C4_amended_blanks_skipped ["000001_0.png"] sampleItemsBlank (by decide)

variable {α : Type*}

/-- Structural engine of a Python slice with positive step: with
countdown k, skip k elements, then take one and reset the countdown to
n - 1; picks the elements at indices k, k + n, k + 2n, ... -/
def everyNthAux (n : Nat) : Nat → List α → List α
  | _, [] => []
  | 0, x :: xs => x :: everyNthAux n (n - 1) xs
  | k + 1, _ :: xs => everyNthAux n k xs

/-- Modelled from the spec's words for ShotSelector: take every Nth
element starting at index O, i.e. the elements at indices O, O + N,
O + 2N, ... while they exist; the max with 1 only guards termination at
N = 0, which is outside the spec's N ≥ 1 domain. -/
def specSlice (l : List α) (o n : Nat) : List α :=
  if h : o < l.length then l[o] :: specSlice l (o + max 1 n) n else []
termination_by l.length - o
decreasing_by
  have h1 : 1 ≤ max 1 n := Nat.le_max_left 1 n
  omega

theorem specSlice_cons (x : α) (xs : List α) (m n : Nat) :
    specSlice (x :: xs) (m + 1) n = specSlice xs m n := by
  rw [specSlice.eq_def (x :: xs) (m + 1) n, specSlice.eq_def xs m n]
  by_cases hm : m < xs.length
  · have hm1 : m + 1 < (x :: xs).length := by simp; omega
    have harith : m + 1 + max 1 n = m + max 1 n + 1 := by omega
    simp only [hm, hm1, dif_pos, List.getElem_cons_succ]
    rw [harith, specSlice_cons x xs (m + max 1 n) n]
  · have hm1 : ¬(m + 1 < (x :: xs).length) := by simp; omega
    simp only [hm, hm1, dif_neg, not_false_iff]
termination_by xs.length - m
decreasing_by
  have h1 : 1 ≤ max 1 n := Nat.le_max_left 1 n
  omega

theorem everyNthAux_eq_specSlice (n : Nat) (hn : 1 ≤ n) :
    ∀ (l : List α) (k : Nat), everyNthAux n k l = specSlice l k n := by
  intro l
  induction l with
  | nil =>
    intro k
    rw [specSlice.eq_def]
    simp [everyNthAux]
  | cons x xs ih =>
    intro k
    cases k with
    | zero =>
      rw [everyNthAux, specSlice.eq_def]
      have h0 : 0 < (x :: xs).length := by simp
      simp only [h0, dif_pos, List.getElem_cons_zero]
      have h2 : specSlice (x :: xs) (0 + max 1 n) n = specSlice xs (n - 1) n := by
        have he : 0 + max 1 n = (n - 1) + 1 := by omega
        rw [he, specSlice_cons]
      rw [h2, ih (n - 1)]
    | succ k =>
      rw [everyNthAux, specSlice_cons, ih k]

theorem everyNthAux_one_zero (l : List α) : everyNthAux 1 0 l = l := by
  induction l with
  | nil => rfl
  | cons x xs ih => rw [everyNthAux]; simpa using ih

/-- Lexicographic order on strings by character code points, the order
Python compares strings with, expressed on the character lists. -/
def strLe (a b : String) : Prop :=
  a.data ≤ b.data

instance : DecidableRel strLe := fun a b =>
  inferInstanceAs (Decidable (a.data ≤ b.data))

instance : IsTotal String strLe :=
  ⟨fun a b => le_total a.data b.data⟩

instance : IsTrans String strLe :=
  ⟨fun _ _ _ h1 h2 => le_trans h1 h2⟩

instance : IsAntisymm String strLe :=
  ⟨fun _ _ h1 h2 => String.toList_inj.mp (le_antisymm h1 h2)⟩

/-- Models Python sorted() on a list of strings: any sorting algorithm
agreeing with the lexicographic order gives the same result, since the
order is total and antisymmetric. -/
def sortStr (l : List String) : List String :=
  l.insertionSort strLe

theorem sortStr_perm (l : List String) : List.Perm (sortStr l) l :=
  List.perm_insertionSort _ l

theorem sortStr_sorted (l : List String) : (sortStr l).Sorted strLe :=
  List.sorted_insertionSort _ l

theorem sortStr_eq_of_perm {l₁ l₂ : List String} (h : List.Perm l₁ l₂) :
    sortStr l₁ = sortStr l₂ :=
  List.eq_of_perm_of_sorted ((sortStr_perm l₁).trans (h.trans (sortStr_perm l₂).symm))
    (sortStr_sorted l₁) (sortStr_sorted l₂)

theorem mem_sortStr {p : String} {l : List String} : p ∈ sortStr l ↔ p ∈ l :=
  (sortStr_perm l).mem_iff

/-- Models the Python extended slice l[start::step] at line 165 of the
source, together with the ValueError Python raises when the step is
zero.  For a positive step the start index is clamped as Python's
slice.indices does (a negative start counts from the end); for a
negative step the walk goes from the clamped start downward, which on a
list is the positive-step walk over the reversed prefix. -/
def pySlice (l : List α) (start step : Int) : Except String (List α) :=
  if step = 0 then .error "slice step cannot be zero"
  else if 0 < step then
    let s : Nat := if start < 0 then ((l.length : Int) + start).toNat else start.toNat
    .ok (everyNthAux step.toNat s l)
  else
    let s : Int := if start < 0 then (l.length : Int) + start
      else min start ((l.length : Int) - 1)
    if s < 0 then .ok []
    else .ok (everyNthAux (-step).toNat 0 ((l.take (s.toNat + 1)).reverse))

instance {ε σ : Type*} [DecidableEq ε] [DecidableEq σ] :
    DecidableEq (Except ε σ) := fun a b =>
  match a, b with
  | .error x, .error y =>
    if h : x = y then .isTrue (by rw [h]) else .isFalse (by intro hc; cases hc; exact h rfl)
  | .error _, .ok _ => .isFalse (by intro hc; cases hc)
  | .ok _, .error _ => .isFalse (by intro hc; cases hc)
  | .ok x, .ok y =>
    if h : x = y then .isTrue (by rw [h]) else .isFalse (by intro hc; cases hc; exact h rfl)

example : pySlice ["a", "b", "c", "d", "e"] 0 2 = .ok ["a", "c", "e"] := by decide
example : pySlice ["a", "b", "c", "d", "e"] 1 2 = .ok ["b", "d"] := by decide
example : pySlice ["a", "b"] 0 (-1) = .ok ["a"] := by decide
example : pySlice ["a", "b"] 0 0 = .error "slice step cannot be zero" := by decide
example : pySlice ["a", "b"] 5 3 = .ok ([] : List String) := by decide

/-- Embedding of lines 162-165 of main: sort the shot ids and apply the
Python slice sorted_shots[offset::keep_every]. -/
def selectShots (ids : List String) (start step : Int) : Except String (List String) :=
  pySlice (sortStr ids) start step

theorem pySlice_nat (l : List α) (o n : Int) (hn : 1 ≤ n) (ho : 0 ≤ o) :
    pySlice l o n = .ok (everyNthAux n.toNat o.toNat l) := by
  unfold pySlice
  have h1 : ¬n = 0 := by omega
  have h2 : (0 : Int) < n := by omega
  have h3 : ¬o < 0 := by omega
  simp [h1, h2, h3]

/-- C3: for stride N ≥ 1 and offset 0 ≤ O < N, the selection of main is
exactly the spec's sorted(shot_ids)[O::N] (every Nth id of the
lexicographically sorted ids starting at index O); it is invariant under
permutation of the enumerated ids; and when N exceeds the number of
shots it is the single shot at index O, or empty without error when
O ≥ count. -/
theorem claim_C3_selection_slice (ids : List String) (o n : Int)
    (hn : 1 ≤ n) (ho : 0 ≤ o) (hon : o < n) :
    selectShots ids o n = .ok (specSlice (sortStr ids) o.toNat n.toNat) ∧
    (∀ ids2, List.Perm ids ids2 → selectShots ids o n = selectShots ids2 o n) ∧
    (((sortStr ids).length : Int) < n →
      selectShots ids o n =
        .ok (if o.toNat < (sortStr ids).length
             then [(sortStr ids).getD o.toNat ""] else [])) := by
  have hn1 : 1 ≤ n.toNat := by omega
  have hmain : selectShots ids o n = .ok (specSlice (sortStr ids) o.toNat n.toNat) := by
    unfold selectShots
    rw [pySlice_nat (sortStr ids) o n hn ho,
      everyNthAux_eq_specSlice n.toNat hn1 (sortStr ids) o.toNat]
  refine ⟨hmain, ?_, ?_⟩
  · intro ids2 hperm
    unfold selectShots
    rw [sortStr_eq_of_perm hperm]
  · intro hlen
    rw [hmain]
    rw [specSlice.eq_def]
    by_cases hol : o.toNat < (sortStr ids).length
    · have hnext : ¬(o.toNat + max 1 n.toNat < (sortStr ids).length) := by
        have : (sortStr ids).length < n.toNat := by omega
        have := Nat.le_max_right 1 n.toNat
        omega
      rw [dif_pos hol, specSlice.eq_def, dif_neg hnext, if_pos hol,
        List.getD_eq_getElem (sortStr ids) "" hol]
    · rw [dif_neg hol, if_neg hol]

theorem claim_C3_witness :
    selectShots ["000002", "000001", "000003"] 0 2 =
      .ok (specSlice (sortStr ["000002", "000001", "000003"]) (0 : Int).toNat
        (2 : Int).toNat) ∧
    (∀ ids2, List.Perm ["000002", "000001", "000003"] ids2 →
      selectShots ["000002", "000001", "000003"] 0 2 = selectShots ids2 0 2) ∧
    (((sortStr ["000002", "000001", "000003"]).length : Int) < 2 →
      selectShots ["000002", "000001", "000003"] 0 2 =
        .ok (if (0 : Int).toNat < (sortStr ["000002", "000001", "000003"]).length
             then [(sortStr ["000002", "000001", "000003"]).getD (0 : Int).toNat ""]
             else [])) :=
  claim_C3_selection_slice ["000002", "000001", "000003"] 0 2
    (by decide) (by decide) (by decide)

/-- The shot id of an image file path: get_shot_number applied to the
file name (its final path component), as in group_by_shot. -/
def shotOf (p : String) : String :=
  get_shot_number (pyBasename p)

/-- The file name of an image path, modelling img_path.name. -/
def imageName (p : String) : String :=
  pyBasename p

/-- Models shots[s] built by group_by_shot: the image files whose shot
id is s, in enumeration order. -/
def group_by_shot (files : List String) (s : String) : List String :=
  files.filter (fun p => shotOf p = s)

/-- Models shots.keys(): the distinct shot ids of the image files.  The
dict preserves first-occurrence order; the model keeps last occurrences,
which is immaterial because main immediately sorts the keys and both
carry the same elements. -/
def shotKeys (files : List String) : List String :=
  (files.map shotOf).dedup

/-- The abort causes of main: missing source (line 144), missing images
directory (line 149), no images found (line 157), and the uncaught
ValueError Python raises at line 165 when the slice step is zero. -/
inductive MainError where
  | sourceMissing
  | imagesDirMissing
  | noImages
  | sliceStepZero
deriving DecidableEq

/-- The parts of the source dataset that main inspects: existence of the
source and images directories, the image files relative to the images
directory, existence of a sparse directory, the lines of images.txt when
it exists, and existence of images.bin. -/
structure Dataset where
  sourceExists : Bool
  imagesDirExists : Bool
  imageFiles : List String
  sparseExists : Bool
  imagesTxt : Option (List String)
  imagesBinExists : Bool
deriving DecidableEq

/-- The observable effects of a successful run: the selected shots, the
image files copied to the output (the code copies sorted(set)), the
filtered images.txt lines with the kept count when pose filtering ran,
and whether the images.bin warning was printed.  The verbatim copies of
cameras and points3D files and the console reporting are not modelled. -/
structure RunOutput where
  selectedShots : List String
  copiedImages : List String
  poseFilter : Option (List String × Nat)
  binWarning : Bool
deriving DecidableEq

/-- Embedding of main (lines 140-236).  The three existence checks and
the slice run before the output directories are created (lines 188-189),
so an error result models an abort with no mutation.  On success the
selected images are the union of the groups of the selected shots; pose
filtering runs only when a sparse directory with images.txt exists, with
the retained-name set being the union of relative paths and bare file
names (line 231); when only images.bin exists the run still copies the
image subset, skips pose filtering, and flags the warning. -/
def mainRun (ds : Dataset) (offset keepEvery : Int) : Except MainError RunOutput :=
  if ds.sourceExists = false then .error .sourceMissing
  else if ds.imagesDirExists = false then .error .imagesDirMissing
  else if ds.imageFiles = [] then .error .noImages
  else
    match selectShots (shotKeys ds.imageFiles) offset keepEvery with
    | .error _ => .error .sliceStepZero
    | .ok selShots =>
      let selRel := selShots.flatMap (group_by_shot ds.imageFiles)
      let selNames := selRel.map imageName
      let pose :=
        if ds.sparseExists then
          match ds.imagesTxt with
          | some lines => some (filterLines (selRel ++ selNames) lines)
          | none => none
        else none
      .ok { selectedShots := selShots,
            copiedImages := sortStr selRel.dedup,
            poseFilter := pose,
            binWarning := ds.sparseExists && ds.imagesTxt.isNone && ds.imagesBinExists }

theorem mainRun_ok (ds : Dataset) (o n : Int)
    (h1 : ds.sourceExists = true) (h2 : ds.imagesDirExists = true)
    (h3 : ds.imageFiles ≠ []) (selShots : List String)
    (hsel : selectShots (shotKeys ds.imageFiles) o n = .ok selShots) :
    mainRun ds o n =
      .ok { selectedShots := selShots,
            copiedImages :=
              sortStr (selShots.flatMap (group_by_shot ds.imageFiles)).dedup,
            poseFilter :=
              if ds.sparseExists then
                match ds.imagesTxt with
                | some lines =>
                  some (filterLines
                    (selShots.flatMap (group_by_shot ds.imageFiles) ++
                      (selShots.flatMap (group_by_shot ds.imageFiles)).map imageName)
                    lines)
                | none => none
              else none,
            binWarning := ds.sparseExists && ds.imagesTxt.isNone && ds.imagesBinExists } := by
  unfold mainRun
  simp [h1, h2, h3, hsel]

theorem pySlice_isOk (l : List α) (start step : Int) (h : step ≠ 0) :
    ∃ r, pySlice l start step = .ok r := by
  unfold pySlice
  rw [if_neg h]
  by_cases h2 : 0 < step
  · rw [if_pos h2]
    exact ⟨_, rfl⟩
  · rw [if_neg h2]
    by_cases h3 :
        (if start < 0 then (l.length : Int) + start
         else min start ((l.length : Int) - 1)) < 0
    · exact ⟨[], by rw [if_pos h3]⟩
    · exact ⟨_, by rw [if_neg h3]⟩

/-- Membership in the image files gathered from the selected shots. -/
theorem mem_flatMap_group (files sel : List String) (p : String) :
    p ∈ sel.flatMap (group_by_shot files) ↔ p ∈ files ∧ shotOf p ∈ sel := by
  rw [List.mem_flatMap]
  constructor
  · rintro ⟨s, hs, hp⟩
    unfold group_by_shot at hp
    rw [List.mem_filter] at hp
    obtain ⟨hpf, hps⟩ := hp
    have : shotOf p = s := by simpa using hps
    exact ⟨hpf, this ▸ hs⟩
  · rintro ⟨hpf, hsel⟩
    refine ⟨shotOf p, hsel, ?_⟩
    unfold group_by_shot
    rw [List.mem_filter]
    exact ⟨hpf, by simp⟩

/-- Membership in the copied image set of a successful run. -/
theorem mem_copiedImages (files sel : List String) (p : String) :
    p ∈ sortStr (sel.flatMap (group_by_shot files)).dedup ↔
      p ∈ files ∧ shotOf p ∈ sel := by
  rw [mem_sortStr, List.mem_dedup, mem_flatMap_group]

/-- C5 counterexample: with stride -1 (a value below 1, so a
configuration error per the claim) the program reports no error and
proceeds to mutate: the run succeeds and copies an image.  main performs
no stride/offset validation; Python slice semantics accept the negative
stride. -/
theorem claim_C5_counterexample :
    mainRun ⟨true, true, ["000001_0.png", "000002_0.png"], false, none, false⟩ 0 (-1) =
      .ok { selectedShots := ["000001"],
            copiedImages := ["000001_0.png"],
            poseFilter := none,
            binWarning := false } := by
  decide

/-- C5 amended: main performs no stride/offset validation.  A stride of
0 aborts through the uncaught ValueError Python raises in the slice,
before any output directory is created; every nonzero stride (including
negative values) and every offset are accepted and the run proceeds to
produce output under Python slice semantics. -/
theorem claim_C5_amended_no_validation (ds : Dataset) (o n : Int)
    (h1 : ds.sourceExists = true) (h2 : ds.imagesDirExists = true)
    (h3 : ds.imageFiles ≠ []) :
    mainRun ds o 0 = .error .sliceStepZero ∧
    (n ≠ 0 → ∃ out, mainRun ds o n = .ok out) := by
  constructor
  · unfold mainRun
    have hz : selectShots (shotKeys ds.imageFiles) o 0 =
        .error "slice step cannot be zero" := by
      unfold selectShots pySlice
      rw [if_pos rfl]
    simp [h1, h2, h3, hz]
  · intro hn
    obtain ⟨sel, hsel⟩ := pySlice_isOk (sortStr (shotKeys ds.imageFiles)) o n hn
    exact ⟨_, mainRun_ok ds o n h1 h2 h3 sel hsel⟩

theorem claim_C5_witness :
    mainRun ⟨true, true, ["000001_0.png", "000002_0.png"], true, none, false⟩ 0 0 =
      .error .sliceStepZero ∧
    ((4 : Int) ≠ 0 →
      ∃ out, mainRun ⟨true, true, ["000001_0.png", "000002_0.png"], true, none, false⟩
        0 4 = .ok out) :=
  claim_C5_amended_no_validation
    ⟨true, true, ["000001_0.png", "000002_0.png"], true, none, false⟩ 0 4
    rfl rfl (by decide)

/-- C7: when no image files are found under the image root, main reports
the condition and exits with status 1 (lines 157-159), before the output
directories are created (lines 188-189): the run aborts with noImages
and produces no output. -/
theorem claim_C7_empty_dataset_aborts (ds : Dataset) (o n : Int)
    (h1 : ds.sourceExists = true) (h2 : ds.imagesDirExists = true)
    (h3 : ds.imageFiles = []) :
    mainRun ds o n = .error .noImages := by
  unfold mainRun
  simp [h1, h2, h3]

theorem claim_C7_witness :
    mainRun ⟨true, true, [], true, none, false⟩ 0 4 = .error .noImages :=
  claim_C7_empty_dataset_aborts ⟨true, true, [], true, none, false⟩ 0 4 rfl rfl rfl

/-- C8: when only images.bin is present (images.txt absent), main flags
the warning that recommends re-running COLMAP, never parses the binary
file (the model never reads it), still copies the subsampled image set,
and writes no filtered pose file. -/
theorem claim_C8_binary_pose_degraded (ds : Dataset) (o n : Int)
    (h1 : ds.sourceExists = true) (h2 : ds.imagesDirExists = true)
    (h3 : ds.imageFiles ≠ []) (hn : n ≠ 0)
    (h4 : ds.sparseExists = true) (h5 : ds.imagesTxt = none)
    (h6 : ds.imagesBinExists = true) :
    ∃ selShots,
      selectShots (shotKeys ds.imageFiles) o n = .ok selShots ∧
      mainRun ds o n =
        .ok { selectedShots := selShots,
              copiedImages :=
                sortStr (selShots.flatMap (group_by_shot ds.imageFiles)).dedup,
              poseFilter := none,
              binWarning := true } := by
  obtain ⟨sel, hsel⟩ := pySlice_isOk (sortStr (shotKeys ds.imageFiles)) o n hn
  refine ⟨sel, hsel, ?_⟩
  rw [mainRun_ok ds o n h1 h2 h3 sel hsel]
  simp [h4, h5, h6]

theorem claim_C8_witness :
    ∃ selShots,
      selectShots (shotKeys ["000001_0.png", "000002_0.png"]) 0 2 = .ok selShots ∧
      mainRun ⟨true, true, ["000001_0.png", "000002_0.png"], true, none, true⟩ 0 2 =
        .ok { selectedShots := selShots,
              copiedImages :=
                sortStr (selShots.flatMap
                  (group_by_shot ["000001_0.png", "000002_0.png"])).dedup,
              poseFilter := none,
              binWarning := true } :=
  claim_C8_binary_pose_degraded
    ⟨true, true, ["000001_0.png", "000002_0.png"], true, none, true⟩ 0 2
    rfl rfl (by decide) (by decide) rfl rfl rfl

/-- C9: shot atomicity.  In any successful run, for every shot id s the
output image set contains either all image files of that shot or none of
them: membership of a file in the copied set depends only on whether its
shot id was selected. -/
theorem claim_C9_shot_atomicity (ds : Dataset) (o n : Int) (out : RunOutput)
    (s : String) (hrun : mainRun ds o n = .ok out) :
    (∀ p ∈ ds.imageFiles, shotOf p = s → p ∈ out.copiedImages) ∨
    (∀ p ∈ ds.imageFiles, shotOf p = s → p ∉ out.copiedImages) := by
  unfold mainRun at hrun
  split at hrun
  · exact Except.noConfusion hrun
  · split at hrun
    · exact Except.noConfusion hrun
    · split at hrun
      · exact Except.noConfusion hrun
      · split at hrun
        · exact Except.noConfusion hrun
        · rename_i selShots hsel
          rw [Except.ok.injEq] at hrun
          subst hrun
          by_cases hs : s ∈ selShots
          · left
            intro p hp hps
            simp only [RunOutput.mk.injEq]
            rw [mem_copiedImages]
            exact ⟨hp, hps ▸ hs⟩
          · right
            intro p hp hps hmem
            rw [mem_copiedImages] at hmem
            exact hs (hps ▸ hmem.2)

theorem claim_C9_witness :
    (∀ p ∈ ["000001_0.png", "000001_1.png", "000002_0.png"], shotOf p = "000001" →
      p ∈ (RunOutput.mk ["000001"] ["000001_0.png", "000001_1.png"] none false).copiedImages) ∨
    (∀ p ∈ ["000001_0.png", "000001_1.png", "000002_0.png"], shotOf p = "000001" →
      p ∉ (RunOutput.mk ["000001"] ["000001_0.png", "000001_1.png"] none false).copiedImages) :=
  claim_C9_shot_atomicity
    ⟨true, true, ["000001_0.png", "000001_1.png", "000002_0.png"], false, none, false⟩
    0 2 ⟨["000001"], ["000001_0.png", "000001_1.png"], none, false⟩ "000001" (by decide)

/-- C2: evaluation of get_shot_number at the input the claim names.
The code takes the part before the LAST underscore of the stripped name,
so "IMG_0001.jpg" yields "IMG", contradicting the claim and the
function's own docstring, which both promise "IMG_0001".  (The first
half of the claim, S_L.ext to S, does hold for lens-suffixed names.) -/
theorem claim_C2_get_shot_number_eval :
    get_shot_number "IMG_0001.jpg" = "IMG" := by
  decide

/-- C6: with stride 1 and offset 0 every shot is selected, so the output
image set is exactly the input image set, and the filtered pose file is
line-for-line the input pose file restricted to entries that reference
an existing image (here: all of them, by hypothesis hex), with the kept
count equal to the number of entries. -/
theorem claim_C6_identity_full_selection (ds : Dataset) (items : List PoseItem)
    (h1 : ds.sourceExists = true) (h2 : ds.imagesDirExists = true)
    (h3 : ds.imageFiles ≠ []) (h4 : ds.sparseExists = true)
    (h5 : ds.imagesTxt = some (flattenPose items))
    (hwf : ∀ it ∈ items, wfItem it)
    (hnb : ∀ s, PoseItem.blank s ∉ items)
    (hex : ∀ h c, PoseItem.entry h c ∈ items →
      entryName h ∈ ds.imageFiles ∨ entryName h ∈ ds.imageFiles.map imageName) :
    ∃ out, mainRun ds 0 1 = .ok out ∧
      (∀ p, p ∈ out.copiedImages ↔ p ∈ ds.imageFiles) ∧
      out.poseFilter = some (flattenPose items, items.countP isEntry) := by
  have hsel : selectShots (shotKeys ds.imageFiles) 0 1 =
      .ok (sortStr (shotKeys ds.imageFiles)) := by
    unfold selectShots
    rw [pySlice_nat (sortStr (shotKeys ds.imageFiles)) 0 1 (by omega) (by omega)]
    simp only [Int.toNat_one, Int.toNat_zero]
    rw [everyNthAux_one_zero]
  have hshot : ∀ p ∈ ds.imageFiles, shotOf p ∈ sortStr (shotKeys ds.imageFiles) := by
    intro p hp
    rw [mem_sortStr]
    unfold shotKeys
    rw [List.mem_dedup]
    exact List.mem_map_of_mem shotOf hp
  have hsub : ∀ p ∈ ds.imageFiles,
      p ∈ (sortStr (shotKeys ds.imageFiles)).flatMap (group_by_shot ds.imageFiles) := by
    intro p hp
    exact (mem_flatMap_group ds.imageFiles _ p).mpr ⟨hp, hshot p hp⟩
  have hnames : ∀ h c, PoseItem.entry h c ∈ items →
      entryName h ∈
        (sortStr (shotKeys ds.imageFiles)).flatMap (group_by_shot ds.imageFiles) ++
        ((sortStr (shotKeys ds.imageFiles)).flatMap
          (group_by_shot ds.imageFiles)).map imageName := by
    intro h c hm
    rcases hex h c hm with hf | hn
    · exact List.mem_append_left _ (hsub _ hf)
    · rw [List.mem_map] at hn
      obtain ⟨q, hq, hqe⟩ := hn
      refine List.mem_append_right _ ?_
      rw [List.mem_map]
      exact ⟨q, hsub q hq, hqe⟩
  refine ⟨_, mainRun_ok ds 0 1 h1 h2 h3 _ hsel, ?_, ?_⟩
  · intro p
    rw [mem_copiedImages]
    exact ⟨fun hh => hh.1, fun hp => ⟨hp, hshot p hp⟩⟩
  · have h0 : filterLines
        ((sortStr (shotKeys ds.imageFiles)).flatMap (group_by_shot ds.imageFiles) ++
          ((sortStr (shotKeys ds.imageFiles)).flatMap
            (group_by_shot ds.imageFiles)).map imageName) [] = ([], 0) := rfl
    have hfl := filterLines_flatten_append
      ((sortStr (shotKeys ds.imageFiles)).flatMap (group_by_shot ds.imageFiles) ++
        ((sortStr (shotKeys ds.imageFiles)).flatMap
          (group_by_shot ds.imageFiles)).map imageName) [] items hwf
    rw [h0] at hfl
    simp only [List.append_nil, Nat.add_zero] at hfl
    simp only [h4, h5, if_true]
    rw [hfl, filterPoseItems_all_kept _ items hnames hnb,
      keptCount_all_kept _ items hnames]

/-- Concrete two-entry pose file whose entries name the two image files
of the C6 witness dataset. -/
def itemsC6 : List PoseItem :=
  [.comment "# two images\n",
   .entry "1 0.5 0.5 0.5 0.5 1.0 2.0 3.0 1 000001_0.png\n" "1.0 2.0 5\n",
   .entry "2 0.5 0.5 0.5 0.5 1.0 2.0 3.0 1 000001_1.png\n" "3.0 4.0 7\n"]

/-- Concrete dataset for the C6 witness: two images of one shot, a
sparse directory, and an images.txt whose entries reference exactly the
two images. -/
def dsC6 : Dataset :=
  ⟨true, true, ["000001_0.png", "000001_1.png"], true, some (flattenPose itemsC6), false⟩

theorem claim_C6_witness :
    ∃ out, mainRun dsC6 0 1 = .ok out ∧
      (∀ p, p ∈ out.copiedImages ↔ p ∈ dsC6.imageFiles) ∧
      out.poseFilter = some (flattenPose itemsC6, itemsC6.countP isEntry) :=
  claim_C6_identity_full_selection dsC6 itemsC6 rfl rfl (by decide) rfl rfl
    (by decide)
    (by intro s hs; simp [itemsC6] at hs)
    (by
      intro h c hm
      simp only [itemsC6, List.mem_cons, List.not_mem_nil, or_false] at hm
      rcases hm with hm | hm | hm
      · exact absurd hm (by simp)
      · obtain ⟨hh, -⟩ := PoseItem.entry.inj hm
        subst hh
        left
        decide
      · obtain ⟨hh, -⟩ := PoseItem.entry.inj hm
        subst hh
        left
        decide)

end Subsample
